import Mathlib

/-!
# Verification of the DaviPlata movement ledger client

A shallow embedding of the ledger logic of the DaviPlata web client:
the editability policy (`canEditMovement`), the movement CRUD wrappers
(`createMovement`'s insert row, `updateMovement`'s field filter), the
form-submission and verification flows, and the three outbound webhook
notifications.  JavaScript numbers are modelled as rationals (`Rat`),
timestamps as millisecond counts, nullable values as `Option`, dynamic
objects as association lists of `JsValue`, and the sequencing of awaited
collaborator calls as explicit event traces (`Ev`).  Functions that can
throw are modelled with an `Except` component; a `try`/`catch` in the
source becomes a wrapper that maps the body's error to a normal return.
-/

/-- A JavaScript runtime value as it appears in the update / insert
objects of the client: a string, a number, or `null`.  An absent key of
an object plays the role of `undefined`. -/
inductive JsValue where
  | str (s : String)
  | num (q : Rat)
  | null
deriving DecidableEq, Repr

/-- A JavaScript object, modelled as an association list (first match wins). -/
abbrev JsObj := List (String × JsValue)

/-- Property lookup: `none` models `undefined`. -/
def jsGet : JsObj → String → Option JsValue
  | [], _ => none
  | (k, v) :: rest, key => if k = key then some v else jsGet rest key

/-- JavaScript truthiness of a nullable string: `null`/`undefined` and the
empty string are falsy. -/
def jsTruthyStr : Option String → Bool
  | none => false
  | some s => s ≠ ""

/-- The JavaScript `a || b` idiom on a nullable string with a string default. -/
def jsStrOr (a : Option String) (b : String) : String :=
  match a with
  | none => b
  | some s => if s = "" then b else s

/-- The JavaScript `x || null` idiom producing a column value. -/
def jsOptStrVal (a : Option String) : JsValue :=
  match a with
  | none => JsValue.null
  | some s => if s = "" then JsValue.null else JsValue.str s

/-- The joined user profile row (`daviplata_usuarios`) carried on a movement. -/
structure Usuarios where
  nombre : Option String := none
  email : Option String := none
deriving DecidableEq, Repr

/-- A row of `daviplata_movimientos` as the client sees it.  `created_at`
is the creation timestamp in milliseconds since the epoch (the only clock
used by the edit-window check); `verified` is the verification state
string (`"PENDIENTE"` / `"VERIFICADO"`); `idmessage` / `remote_jid` are
the external correlation identifiers returned by the notification
webhook. -/
structure Movement where
  id : String
  usuario_id : String := ""
  tipo : String := ""
  monto : Rat := 0
  motivo : String := ""
  comprobante_url : Option String := none
  fecha : String := ""
  created_at : Rat := 0
  verified : String := ""
  idmessage : Option String := none
  remote_jid : Option String := none
  daviplata_usuarios : Option Usuarios := none
deriving DecidableEq, Repr

/-- Result record of `canEditMovement`: `{ canEdit, reason }`. -/
structure EditCheck where
  canEdit : Bool
  reason : String
deriving DecidableEq, Repr

/-- Comparator of the edit check's sort: `a` sorts no later than `b` when
`a` was created at or after `b` (`(b, a) => new Date(b.created_at) - new
Date(a.created_at)`, i.e. `created_at` descending). -/
def movAfter (a b : Movement) : Prop := b.created_at ≤ a.created_at

instance : DecidableRel movAfter :=
  fun a b => inferInstanceAs (Decidable (b.created_at ≤ a.created_at))

instance : IsTotal Movement movAfter :=
  ⟨fun a b => le_total b.created_at a.created_at⟩

instance : IsTrans Movement movAfter :=
  ⟨fun _ _ _ h1 h2 => le_trans h2 h1⟩

/-- `[...allMovements].sort((a, b) => new Date(b.created_at) - new
Date(a.created_at))`: a stable sort by `created_at` descending. -/
def sortedDesc (l : List Movement) : List Movement :=
  List.insertionSort movAfter l

/-- The id of the entry at position 0 after sorting by `created_at`
descending (the "latest" movement), when the collection is non-empty. -/
def latestId (l : List Movement) : Option String :=
  (sortedDesc l).head?.map (·.id)

/-- `const diffMinutes = (now - createdAt) / (1000 * 60)` — elapsed
minutes, fractional. -/
def diffMinutesOf (now createdAt : Rat) : Rat :=
  (now - createdAt) / (1000 * 60)

/-- `const remainingMinutes = Math.ceil(30 - diffMinutes)`. -/
def remainingMinutesOf (diffMinutes : Rat) : Int :=
  ⌈(30 : Rat) - diffMinutes⌉

/-- The success reason string, with its pluralization:
`` `Puedes editar por ${n} minuto${n !== 1 ? 's' : ''} más` ``. -/
def editReason (r : Int) : String :=
  "Puedes editar por " ++ toString r ++ " minuto" ++
    (if r ≠ 1 then "s" else "") ++ " más"

/-- `canEditMovement(movement, allMovements)` from `movements.js`, with
the wall clock injected as `now` (milliseconds).  A `none` movement
models the `!movement` guard; the empty-collection guard and the sort's
head are merged into one `match` (the sort of a non-empty list is
non-empty, so the `[]` branch is exactly the `length === 0` guard). -/
def canEditMovement (movement : Option Movement) (allMovements : List Movement)
    (now : Rat) : EditCheck :=
  match movement with
  | none => ⟨false, "Movimiento no encontrado"⟩
  | some mv =>
    match sortedDesc allMovements with
    | [] => ⟨false, "Movimiento no encontrado"⟩
    | latest :: _ =>
      if mv.id ≠ latest.id then
        ⟨false, "Solo se puede editar el último movimiento registrado"⟩
      else
        let diffMinutes := diffMinutesOf now mv.created_at
        if 30 < diffMinutes then
          ⟨false, "Han pasado más de 30 minutos desde la creación"⟩
        else
          ⟨true, editReason (remainingMinutesOf diffMinutes)⟩

/-! ## Persistence model

The `daviplata_movimientos` table is modelled as a list of rows; an
update applies a field object to the row with the matching id. -/

/-- The in-memory model of the `daviplata_movimientos` table. -/
abbrev DB := List Movement

/-- Apply one update field to a row (the effect of one column of a
Supabase `.update(...)` object on the stored row). -/
def applyField (m : Movement) : String × JsValue → Movement
  | ("monto", JsValue.num q) => { m with monto := q }
  | ("motivo", JsValue.str s) => { m with motivo := s }
  | ("comprobante_url", v) => { m with comprobante_url :=
      match v with | JsValue.str s => some s | _ => none }
  | ("verified", JsValue.str s) => { m with verified := s }
  | ("idmessage", v) => { m with idmessage :=
      match v with | JsValue.str s => some s | _ => none }
  | ("remote_jid", v) => { m with remote_jid :=
      match v with | JsValue.str s => some s | _ => none }
  | _ => m

/-- Apply a whole update object to a row. -/
def applyUpdates (m : Movement) (fields : JsObj) : Movement :=
  fields.foldl applyField m

/-- `select ... eq('id', id) single()`: the row with the given id. -/
def dbFind (db : DB) (id : String) : Option Movement :=
  db.find? (fun m => m.id = id)

/-- `update(fields) eq('id', id)`: rewrite the matching row. -/
def dbSet (db : DB) (id : String) (fields : JsObj) : DB :=
  db.map (fun m => if m.id = id then applyUpdates m fields else m)

/-! ## Observable events

Each awaited collaborator call of the client is recorded as one event, in
program order.  Webhook posts also carry the movement they were built
from, so ordering claims can speak about "the notification for the old /
new state". -/

/-- The three webhook endpoints (`WEBHOOK_MOVEMENT`, `WEBHOOK_VERIFY`,
`WEBHOOK_DELETE`). -/
inductive WebhookKind where
  | movement
  | verify
  | delete
deriving DecidableEq, Repr

/-- One observable step of a flow: a database read or write, a webhook
post (with the movement it describes and the form payload), a console
log (info / warn / error) or a toast shown to the user. -/
inductive Ev where
  | fetchById (id : String)
  | statsFetch
  | webhookPost (kind : WebhookKind) (m : Movement) (payload : JsObj)
  | dbWrite (id : String) (fields : JsObj)
  | logI (msg : String)
  | logW (msg : String)
  | logE (msg : String)
  | toast (msg : String) (kind : String)
deriving DecidableEq, Repr

/-- The JSON body a webhook may answer with (`result.id`,
`result.remoteJid`). -/
structure WebhookJson where
  id : Option String := none
  remoteJid : Option String := none
deriving DecidableEq, Repr

/-- A fetch response: its `ok` flag and the result of `response.json()`
(which can itself reject). -/
structure WebhookResponse where
  ok : Bool
  json : Except String WebhookJson
deriving Repr

/-- The environment of one pass through a flow: the outcome of each
`fetch` to the three webhooks, the statistics read, the session profile
(`AppState.userProfile`) and the current ISO clock string.  A `.error`
outcome models a rejected promise. -/
structure Env where
  fetchMovementResp : Except String WebhookResponse := Except.ok ⟨true, Except.ok {}⟩
  fetchVerifyResp : Except String WebhookResponse := Except.ok ⟨true, Except.ok {}⟩
  fetchDeleteResp : Except String WebhookResponse := Except.ok ⟨true, Except.ok {}⟩
  statsResult : Except String Rat := Except.ok 0
  profileNombre : Option String := none
  profileEmail : Option String := none
  nowIso : String := ""
deriving Repr

/-! ## `updateMovement` and `createMovement` (`movements.js`) -/

/-- The `allowedUpdates` object built by `updateMovement`: only `monto`,
`motivo` and `comprobante_url` are copied from the caller's update
object (a key is copied when it is not `undefined`). -/
def allowedUpdatesOf (updates : JsObj) : JsObj :=
  (match jsGet updates "monto" with
    | some v => [("monto", v)] | none => []) ++
  (match jsGet updates "motivo" with
    | some v => [("motivo", v)] | none => []) ++
  (match jsGet updates "comprobante_url" with
    | some v => [("comprobante_url", v)] | none => [])

/-- `updateMovement(id, updates)`: filter the updates, write the row,
return the updated row (`null`, with an error toast, when the row does
not exist — the model of the `.single()` error path). -/
def updateMovement (db : DB) (id : String) (updates : JsObj) :
    DB × Option Movement × List Ev :=
  let allowed := allowedUpdatesOf updates
  match dbFind db id with
  | none =>
    (db, none, [Ev.dbWrite id allowed, Ev.logE "Error actualizando movimiento",
      Ev.toast "Error al actualizar movimiento" "error"])
  | some row =>
    (dbSet db id allowed, some (applyUpdates row allowed),
      [Ev.dbWrite id allowed, Ev.logI "Movimiento actualizado"])

/-- The argument object handed to `createMovement` by `handleFormSubmit`
(it carries a `verified` field even though `createMovement` never reads
it). -/
structure NewMovement where
  tipo : String := ""
  monto : Rat := 0
  motivo : String := ""
  comprobante_url : Option String := none
  fecha : Option String := none
  verified : Option String := none
deriving DecidableEq, Repr

/-- The row object `createMovement` passes to `insert([...])`: exactly
`usuario_id`, `tipo`, `monto`, `motivo`, `comprobante_url || null` and
`fecha || new Date().toISOString()` — and nothing else. -/
def insertRowOf (mv : NewMovement) (usuarioId : String) (nowIso : String) : JsObj :=
  [("usuario_id", JsValue.str usuarioId),
   ("tipo", JsValue.str mv.tipo),
   ("monto", JsValue.num mv.monto),
   ("motivo", JsValue.str mv.motivo),
   ("comprobante_url", jsOptStrVal mv.comprobante_url),
   ("fecha", JsValue.str (jsStrOr mv.fecha nowIso))]

/-- `const verified = AppState.isAdmin ? 'VERIFICADO' : 'PENDIENTE'` —
the verification state `handleFormSubmit` derives from the actor's
privilege. -/
def verifiedFor (isAdmin : Bool) : String :=
  if isAdmin then "VERIFICADO" else "PENDIENTE"

/-- The insert row produced by the creation branch of `handleFormSubmit`:
it builds the movement object (including the derived `verified`) and
hands it to `createMovement`. -/
def handleFormSubmitCreateRow (isAdmin : Bool) (tipo : String) (monto : Rat)
    (motivo : String) (comprobanteUrl : Option String)
    (usuarioId nowIso : String) : JsObj :=
  insertRowOf
    { tipo := tipo, monto := monto, motivo := motivo,
      comprobante_url := comprobanteUrl, verified := some (verifiedFor isAdmin) }
    usuarioId nowIso

/-! ## Webhook notifications (`src/unnamed/part_000`)

Each `notifyXxxWebhook` is a `try` body (which can end in an error, the
model of a rejected `await`) wrapped by a `catch` that logs and returns
normally. -/

/-- The `FormData` payload of `notifyMovementWebhook`: id, tipo, monto,
saldo_despues, motivo, url, fecha, the user columns (movement row user
falling back to the session profile), and `remote_jid` when present. -/
def movementPayload (env : Env) (m : Movement) (balanceAfter : Rat) : JsObj :=
  [("id", JsValue.str m.id),
   ("tipo", JsValue.str m.tipo),
   ("monto", JsValue.num m.monto),
   ("saldo_despues", JsValue.num balanceAfter),
   ("motivo", JsValue.str m.motivo),
   ("url", JsValue.str (jsStrOr m.comprobante_url "")),
   ("fecha", JsValue.str (jsStrOr (some m.fecha) env.nowIso)),
   ("usuario_nombre", JsValue.str
     (jsStrOr (m.daviplata_usuarios.bind Usuarios.nombre)
       (jsStrOr env.profileNombre ""))),
   ("usuario_email", JsValue.str
     (jsStrOr (m.daviplata_usuarios.bind Usuarios.email)
       (jsStrOr env.profileEmail "")))] ++
  (if jsTruthyStr m.remote_jid
    then [("remote_jid", JsValue.str (m.remote_jid.getD ""))] else [])

/-- The `try` body of `notifyMovementWebhook`: read the statistics (its
own inner `try` falls back to balance `0` with a warning), post the
payload, and — when the response is `ok` and carries `result.id` or
`result.remoteJid` — persist the correlation identifiers through
`updateMovement`. -/
def notifyMovementWebhookTry (env : Env) (db : DB) (m : Movement) :
    DB × List Ev × Except String Unit :=
  let balanceAfter : Rat × List Ev :=
    match env.statsResult with
    | Except.ok b => (b, [Ev.statsFetch])
    | Except.error _ =>
      (0, [Ev.statsFetch,
        Ev.logW "No se pudo obtener el saldo actualizado para el webhook"])
  let payload := movementPayload env m balanceAfter.1
  let evs0 := balanceAfter.2 ++ [Ev.webhookPost WebhookKind.movement m payload]
  match env.fetchMovementResp with
  | Except.error e => (db, evs0, Except.error e)
  | Except.ok resp =>
    if resp.ok then
      match resp.json with
      | Except.error e => (db, evs0, Except.error e)
      | Except.ok result =>
        let evs1 := evs0 ++ [Ev.logI "Respuesta del webhook"]
        if jsTruthyStr result.id || jsTruthyStr result.remoteJid then
          let upd := updateMovement db m.id
            [("idmessage", jsOptStrVal result.id),
             ("remote_jid", jsOptStrVal result.remoteJid)]
          (upd.1, evs1 ++ upd.2.2 ++
            [Ev.logI "Datos del webhook guardados",
             Ev.logI "Webhook notificado exitosamente"], Except.ok ())
        else
          (db, evs1 ++ [Ev.logI "Webhook notificado exitosamente"], Except.ok ())
    else
      (db, evs0 ++ [Ev.logI "Webhook notificado exitosamente"], Except.ok ())

/-- `notifyMovementWebhook(movement)`: the body with its enclosing
`catch`, which downgrades any failure to a `console.warn`. -/
def notifyMovementWebhook (env : Env) (db : DB) (m : Movement) :
    DB × List Ev × Except String Unit :=
  match notifyMovementWebhookTry env db m with
  | (db2, evs, Except.ok _) => (db2, evs, Except.ok ())
  | (db2, evs, Except.error _) =>
    (db2, evs ++ [Ev.logW "Error notificando webhook"], Except.ok ())

/-- The `try` body of `notifyVerificationWebhook`: skip (with a warning)
when `idmessage` or `remote_jid` is missing; otherwise post the payload
with the `+`-prefixed phone number split off the JID. -/
def notifyVerificationWebhookTry (env : Env) (m : Movement) :
    List Ev × Except String Unit :=
  if jsTruthyStr m.idmessage && jsTruthyStr m.remote_jid then
    let jid := m.remote_jid.getD ""
    let phone := (jid.splitOn "@").headI
    let payload : JsObj :=
      [("idmessage", JsValue.str (m.idmessage.getD "")),
       ("numero_destinatario", JsValue.str ("+" ++ phone)),
       ("id_movimiento", JsValue.str m.id),
       ("monto", JsValue.num m.monto),
       ("tipo", JsValue.str m.tipo)]
    let evs0 := [Ev.logI "Enviando webhook de verificación",
      Ev.webhookPost WebhookKind.verify m payload]
    match env.fetchVerifyResp with
    | Except.error e => (evs0, Except.error e)
    | Except.ok resp =>
      (evs0 ++ [if resp.ok then Ev.logI "Webhook de verificación enviado con éxito"
        else Ev.logW "Fallo al enviar webhook de verificación"], Except.ok ())
  else
    ([Ev.logW "Movimiento sin idmessage o remote_jid, no se puede notificar verificación"],
      Except.ok ())

/-- `notifyVerificationWebhook(movement)` with its enclosing `catch`
(`console.error`, return normally). -/
def notifyVerificationWebhook (env : Env) (m : Movement) :
    List Ev × Except String Unit :=
  match notifyVerificationWebhookTry env m with
  | (evs, Except.ok _) => (evs, Except.ok ())
  | (evs, Except.error _) =>
    (evs ++ [Ev.logE "Error enviando webhook de verificación"], Except.ok ())

/-- The `try` body of `notifyDeletionWebhook`: skip (with a warning) when
`idmessage` or `remote_jid` is missing; otherwise post the payload with
the full JID as recipient. -/
def notifyDeletionWebhookTry (env : Env) (m : Movement) :
    List Ev × Except String Unit :=
  if jsTruthyStr m.idmessage && jsTruthyStr m.remote_jid then
    let jid := m.remote_jid.getD ""
    let payload : JsObj :=
      [("idmessage", JsValue.str (m.idmessage.getD "")),
       ("numero_destinatario", JsValue.str jid),
       ("id_movimiento", JsValue.str m.id),
       ("monto", JsValue.num m.monto),
       ("tipo", JsValue.str m.tipo)]
    let evs0 := [Ev.logI "Enviando webhook de eliminación (con JID completo)",
      Ev.webhookPost WebhookKind.delete m payload]
    match env.fetchDeleteResp with
    | Except.error e => (evs0, Except.error e)
    | Except.ok resp =>
      (evs0 ++ (if resp.ok
        then [Ev.logI "Webhook de eliminación enviado con éxito"] else []),
        Except.ok ())
  else
    ([Ev.logW "Movimiento sin idmessage o remote_jid, no se puede notificar eliminación"],
      Except.ok ())

/-- `notifyDeletionWebhook(movement)` with its enclosing `catch`
(`console.error`, return normally). -/
def notifyDeletionWebhook (env : Env) (m : Movement) :
    List Ev × Except String Unit :=
  match notifyDeletionWebhookTry env m with
  | (evs, Except.ok _) => (evs, Except.ok ())
  | (evs, Except.error _) =>
    (evs ++ [Ev.logE "Error enviando webhook de eliminación"], Except.ok ())

/-- The `try` body of the `upload.js` variant of `notifyMovementWebhook`:
a plain JSON post (`tipo`, `monto`, `motivo`, `url`) whose response is
never read. -/
def notifyMovementWebhookLegacyTry (env : Env) (m : Movement) :
    List Ev × Except String Unit :=
  let payload : JsObj :=
    [("tipo", JsValue.str m.tipo),
     ("monto", JsValue.num m.monto),
     ("motivo", JsValue.str m.motivo),
     ("url", jsOptStrVal m.comprobante_url)]
  let evs0 := [Ev.logI "Notificando movimiento al webhook",
    Ev.webhookPost WebhookKind.movement m payload]
  match env.fetchMovementResp with
  | Except.error e => (evs0, Except.error e)
  | Except.ok _ => (evs0 ++ [Ev.logI "Webhook notificado"], Except.ok ())

/-- The `upload.js` variant of `notifyMovementWebhook` with its enclosing
`catch` (`console.warn`, return normally: "la notificación es
secundaria"). -/
def notifyMovementWebhookLegacy (env : Env) (m : Movement) :
    List Ev × Except String Unit :=
  match notifyMovementWebhookLegacyTry env m with
  | (evs, Except.ok _) => (evs, Except.ok ())
  | (evs, Except.error _) =>
    (evs ++ [Ev.logW "Error notificando webhook"], Except.ok ())

/-! ## The edit and verify flows (`handleFormSubmit` edit branch,
`handleVerifyMovement`) -/

/-- The validated form values reaching the edit branch of
`handleFormSubmit`. -/
structure EditForm where
  monto : Rat
  motivo : String
  comprobanteUrl : Option String := none
  isAdmin : Bool := false
  editingMovementId : String
deriving Repr

/-- The update object built by the edit branch:
`{ monto, motivo, verified }`, plus `comprobante_url` when an upload
produced a URL. -/
def editUpdatesOf (f : EditForm) : JsObj :=
  [("monto", JsValue.num f.monto),
   ("motivo", JsValue.str f.motivo),
   ("verified", JsValue.str (verifiedFor f.isAdmin))] ++
  (if jsTruthyStr f.comprobanteUrl
    then [("comprobante_url", JsValue.str (f.comprobanteUrl.getD ""))] else [])

/-- The edit branch of `handleFormSubmit` ("FLUJO DE EDICIÓN (ORDEN
CRÍTICO)"): (1) fetch the current row, (2) await the deletion webhook
when the old row has an `idmessage`, (3) await the database update,
(4) when it succeeded, await the movement webhook for the new row. -/
def handleFormSubmitEdit (env : Env) (db : DB) (f : EditForm) : DB × List Ev :=
  let oldMovement := dbFind db f.editingMovementId
  let evs1 := [Ev.fetchById f.editingMovementId]
  let evs2 :=
    match oldMovement with
    | some old =>
      if jsTruthyStr old.idmessage then (notifyDeletionWebhook env old).1 else []
    | none => []
  let upd := updateMovement db f.editingMovementId (editUpdatesOf f)
  match upd.2.1 with
  | some updated =>
    let notif := notifyMovementWebhook env upd.1 updated
    (notif.1, evs1 ++ evs2 ++ upd.2.2 ++ notif.2.1 ++
      [Ev.toast "Movimiento actualizado y re-notificado" "success"])
  | none => (upd.1, evs1 ++ evs2 ++ upd.2.2)

/-- `handleVerifyMovement(id)` after the confirmation dialog: (1) fetch
the freshest row, (2) update `verified` to `'VERIFICADO'` through
`updateMovement`, (3) when the update returned a row, send the
verification webhook if the fetched row has both correlation
identifiers, otherwise warn that the notification was skipped. -/
def handleVerifyMovement (env : Env) (db : DB) (id : String) : DB × List Ev :=
  let latestMovement := dbFind db id
  let evs1 := [Ev.fetchById id]
  match latestMovement with
  | none =>
    (db, evs1 ++ [Ev.toast "No se pudo encontrar el movimiento actualizado" "error"])
  | some latest =>
    let upd := updateMovement db id [("verified", JsValue.str "VERIFICADO")]
    match upd.2.1 with
    | some _ =>
      let evs3 :=
        if jsTruthyStr latest.idmessage && jsTruthyStr latest.remote_jid then
          (notifyVerificationWebhook env latest).1
        else
          [Ev.logW "No se pudo enviar notificación de WhatsApp: faltan datos del webhook original",
           Ev.toast "Verificado sin notificación (datos de WhatsApp no disponibles)" "warning"]
      (upd.1, evs1 ++ upd.2.2 ++ evs3 ++
        [Ev.toast "Movimiento verificado exitosamente" "success"])
    | none =>
      (upd.1, evs1 ++ upd.2.2 ++
        [Ev.toast "Error al actualizar el estado del movimiento" "error"])

/-! ## Collaborator-call projection of a trace -/

/-- The three collaborator calls of the edit flow's ordering contract. -/
inductive CollabCall where
  | deleteNotify (m : Movement)
  | persist (id : String) (fields : JsObj)
  | createNotify (m : Movement)
deriving DecidableEq, Repr

/-- Keep only the webhook posts and the database writes of a trace. -/
def collabCallsOf (tr : List Ev) : List CollabCall :=
  tr.filterMap (fun e =>
    match e with
    | Ev.webhookPost WebhookKind.delete m _ => some (CollabCall.deleteNotify m)
    | Ev.webhookPost WebhookKind.movement m _ => some (CollabCall.createNotify m)
    | Ev.dbWrite id fields => some (CollabCall.persist id fields)
    | _ => none)

/-- The number of verification-webhook posts in a trace. -/
def verifyPostCount (tr : List Ev) : Nat :=
  tr.countP (fun e =>
    match e with
    | Ev.webhookPost WebhookKind.verify _ _ => true
    | _ => false)

/-! ## Helper lemmas about the descending sort -/

/-- The sort permutes the collection. -/
theorem sortedDesc_perm (l : List Movement) : List.Perm (sortedDesc l) l :=
  List.perm_insertionSort movAfter l

/-- The head of the sorted collection is one of its movements. -/
theorem sortedDesc_head_mem {l : List Movement} {latest : Movement}
    {rest : List Movement} (h : sortedDesc l = latest :: rest) : latest ∈ l :=
  (sortedDesc_perm l).mem_iff.mp (h ▸ List.mem_cons_self latest rest)

/-- Every movement of the collection was created no later than the head
of the sorted collection. -/
theorem sortedDesc_head_max {l : List Movement} {latest : Movement}
    {rest : List Movement} (h : sortedDesc l = latest :: rest) :
    ∀ x ∈ l, x.created_at ≤ latest.created_at := by
  intro x hx
  have hsorted : List.Sorted movAfter (latest :: rest) := by
    rw [← h]
    exact List.sorted_insertionSort movAfter l
  have hx' : x ∈ latest :: rest := by
    rw [← h]
    exact ((sortedDesc_perm l).symm.mem_iff).mp hx
  rcases List.mem_cons.mp hx' with hEq | hTail
  · exact le_of_eq (congrArg Movement.created_at hEq)
  · exact List.rel_of_sorted_cons hsorted x hTail

/-- A strictly latest movement of the collection is the head of the
sorted collection. -/
theorem sortedDesc_head_of_strict_latest {l : List Movement} {m latest : Movement}
    {rest : List Movement} (h : sortedDesc l = latest :: rest)
    (hmem : m ∈ l) (hlatest : ∀ m' ∈ l, m' ≠ m → m'.created_at < m.created_at) :
    latest = m := by
  by_contra hne
  have h1 : latest.created_at < m.created_at :=
    hlatest latest (sortedDesc_head_mem h) hne
  have h2 : m.created_at ≤ latest.created_at := sortedDesc_head_max h m hmem
  exact absurd h2 (not_le.mpr h1)

/-- A non-empty collection sorts to a non-empty list. -/
theorem sortedDesc_ne_nil {l : List Movement} (h : l ≠ []) :
    sortedDesc l ≠ [] := by
  intro hnil
  exact h (List.Perm.eq_nil (hnil ▸ (sortedDesc_perm l).symm))

/-! ## Claim theorems: editability policy -/

/-- C1: for the strictly most recently created movement of the
collection, when at most 30 minutes have elapsed (the exact 30-minute
boundary included), `canEditMovement` answers `canEdit = true` and the
reason string embeds `remainingMinutes = ceil(30 - elapsedMinutes)`,
pluralized as `minuto` for 1 and `minutos` otherwise (witnessed here for
1 and for 20). -/
theorem canEdit_latest_within_window (m : Movement) (coll : List Movement)
    (now : Rat) (hmem : m ∈ coll)
    (hlatest : ∀ m' ∈ coll, m' ≠ m → m'.created_at < m.created_at)
    (hwin : diffMinutesOf now m.created_at ≤ 30) :
    canEditMovement (some m) coll now
      = ⟨true, editReason (remainingMinutesOf (diffMinutesOf now m.created_at))⟩
    ∧ remainingMinutesOf (diffMinutesOf now m.created_at)
      = ⌈(30 : Rat) - diffMinutesOf now m.created_at⌉
    ∧ editReason 1 = "Puedes editar por 1 minuto más"
    ∧ editReason 20 = "Puedes editar por 20 minutos más" := by
  refine ⟨?_, rfl, rfl, rfl⟩
  have hne : coll ≠ [] := List.ne_nil_of_mem hmem
  cases hsort : sortedDesc coll with
  | nil => exact absurd hsort (sortedDesc_ne_nil hne)
  | cons latest rest =>
    have hlm : latest = m := sortedDesc_head_of_strict_latest hsort hmem hlatest
    subst hlm
    simp only [canEditMovement, hsort, ne_eq, not_true_eq_false, if_false,
      if_neg (not_lt.mpr hwin)]

/-- Fixture: a movement created at epoch 0 (the later of the two). -/
def fixA : Movement := { id := "a", created_at := 0 }

/-- Fixture: a movement created 10 minutes before `fixA`. -/
def fixB : Movement := { id := "b", created_at := -600000 }

/-- Witness for C1: the spec's scenario — the latest of the movements,
10 minutes old, is editable with 20 minutes remaining. -/
theorem canEdit_latest_within_window_witness :
    (fixA ∈ [fixA, fixB]
     ∧ (∀ m' ∈ [fixA, fixB], m' ≠ fixA → m'.created_at < fixA.created_at)
     ∧ diffMinutesOf 600000 fixA.created_at ≤ 30)
    ∧ (canEditMovement (some fixA) [fixA, fixB] 600000
        = ⟨true, editReason (remainingMinutesOf (diffMinutesOf 600000 fixA.created_at))⟩
       ∧ remainingMinutesOf (diffMinutesOf 600000 fixA.created_at)
        = ⌈(30 : Rat) - diffMinutesOf 600000 fixA.created_at⌉
       ∧ editReason 1 = "Puedes editar por 1 minuto más"
       ∧ editReason 20 = "Puedes editar por 20 minutos más") := by
  have h1 : fixA ∈ [fixA, fixB] := by simp
  have h2 : ∀ m' ∈ [fixA, fixB], m' ≠ fixA → m'.created_at < fixA.created_at := by
    intro m' hm' hne
    rcases List.mem_cons.mp hm' with h | h
    · exact absurd h hne
    · have hb : m' = fixB := by simpa using h
      subst hb
      norm_num [fixA, fixB]
  have h3 : diffMinutesOf 600000 fixA.created_at ≤ 30 := by
    norm_num [diffMinutesOf, fixA]
  exact ⟨⟨h1, h2, h3⟩, canEdit_latest_within_window fixA [fixA, fixB] 600000 h1 h2 h3⟩

/-- C2: a movement of the collection whose id is not the id at position 0
of the sort by `created_at` descending is never editable, with the
"only the most recent movement" reason, whatever its age (`now` is
arbitrary). -/
theorem canEdit_not_latest (m : Movement) (coll : List Movement) (now : Rat)
    (hmem : m ∈ coll) (hid : latestId coll ≠ some m.id) :
    canEditMovement (some m) coll now
      = ⟨false, "Solo se puede editar el último movimiento registrado"⟩ := by
  have hne : coll ≠ [] := List.ne_nil_of_mem hmem
  cases hsort : sortedDesc coll with
  | nil => exact absurd hsort (sortedDesc_ne_nil hne)
  | cons latest rest =>
    have hid' : m.id ≠ latest.id := by
      intro h
      exact hid (by simp [latestId, hsort, h])
    simp only [canEditMovement, hsort, ne_eq, if_pos hid']

/-- Witness for C2: the spec's scenario — a movement 5 minutes old, with
a newer movement present, is not editable and the reason cites "el
último movimiento". -/
theorem canEdit_not_latest_witness :
    (fixB ∈ [fixA, fixB] ∧ latestId [fixA, fixB] ≠ some fixB.id)
    ∧ canEditMovement (some fixB) [fixA, fixB] (-300000)
      = ⟨false, "Solo se puede editar el último movimiento registrado"⟩ := by
  have h1 : fixB ∈ [fixA, fixB] := by simp
  have h2 : latestId [fixA, fixB] ≠ some fixB.id := by decide
  exact ⟨⟨h1, h2⟩, canEdit_not_latest fixB [fixA, fixB] (-300000) h1 h2⟩

/-- Counterexample for C5: `fixB` is not found among the movements of the
non-empty collection `[fixA]`, yet the result's reason is the
"only the most recent movement" message, not the "not found" message
(`Movimiento no encontrado`) the claim requires. -/
theorem canEdit_notFound_counterexample :
    fixB.id ∉ [fixA].map Movement.id
    ∧ canEditMovement (some fixB) [fixA] 0
      ≠ ⟨false, "Movimiento no encontrado"⟩
    ∧ canEditMovement (some fixB) [fixA] 0
      = ⟨false, "Solo se puede editar el último movimiento registrado"⟩ := by
  refine ⟨by decide, ?_, by decide⟩
  decide

/-- C5 amended: an empty collection (or a null movement) yields the
"not found" result; a movement not found among a non-empty collection is
also not editable, but with the "only the most recent movement" reason
instead of "not found". -/
theorem canEdit_notFound_amended (m : Movement) (coll : List Movement)
    (now : Rat) (mv : Option Movement) :
    canEditMovement mv [] now = ⟨false, "Movimiento no encontrado"⟩
    ∧ canEditMovement none coll now = ⟨false, "Movimiento no encontrado"⟩
    ∧ (coll ≠ [] → m.id ∉ coll.map Movement.id →
        canEditMovement (some m) coll now
          = ⟨false, "Solo se puede editar el último movimiento registrado"⟩) := by
  refine ⟨?_, rfl, ?_⟩
  · cases mv with
    | none => rfl
    | some mv' => rfl
  · intro hne hnotin
    cases hsort : sortedDesc coll with
    | nil => exact absurd hsort (sortedDesc_ne_nil hne)
    | cons latest rest =>
      have hid' : m.id ≠ latest.id := by
        intro h
        exact hnotin (h ▸ List.mem_map_of_mem Movement.id (sortedDesc_head_mem hsort))
      simp only [canEditMovement, hsort, ne_eq, if_pos hid']

/-- Witness for the amended C5: the empty collection and a movement
missing from a one-element collection. -/
theorem canEdit_notFound_amended_witness :
    ([fixA] ≠ ([] : List Movement) ∧ fixB.id ∉ [fixA].map Movement.id)
    ∧ (canEditMovement (some fixB) [] 7 = ⟨false, "Movimiento no encontrado"⟩
       ∧ canEditMovement none [fixA] 7 = ⟨false, "Movimiento no encontrado"⟩
       ∧ ([fixA] ≠ [] → fixB.id ∉ [fixA].map Movement.id →
           canEditMovement (some fixB) [fixA] 7
             = ⟨false, "Solo se puede editar el último movimiento registrado"⟩)) :=
  ⟨⟨by decide, by decide⟩, canEdit_notFound_amended fixB [fixA] 7 (some fixB)⟩

/-- C9: the remaining-minutes count `Math.ceil(30 - diffMinutes)` used by
`canEditMovement` is monotonically non-increasing in the elapsed time, is
strictly positive for any elapsed time strictly below 30 minutes, and is
exactly 0 at the 30-minute boundary. -/
theorem remainingMinutes_monotone_boundary (e1 e2 e : Rat) :
    (e1 ≤ e2 → remainingMinutesOf e2 ≤ remainingMinutesOf e1)
    ∧ (e < 30 → 0 < remainingMinutesOf e)
    ∧ remainingMinutesOf 30 = 0 := by
  refine ⟨?_, ?_, ?_⟩
  · intro h
    exact Int.ceil_mono (by linarith)
  · intro h
    exact Int.ceil_pos.mpr (by linarith)
  · simp [remainingMinutesOf]

/-- Witness for C9 at elapsed times 3, 5 and 29 minutes. -/
theorem remainingMinutes_monotone_boundary_witness :
    ((3 : Rat) ≤ 5 ∧ (29 : Rat) < 30)
    ∧ (remainingMinutesOf 5 ≤ remainingMinutesOf 3
       ∧ 0 < remainingMinutesOf 29
       ∧ remainingMinutesOf 30 = 0) :=
  ⟨⟨by norm_num, by norm_num⟩,
   (remainingMinutes_monotone_boundary 3 5 29).1 (by norm_num),
   (remainingMinutes_monotone_boundary 3 5 29).2.1 (by norm_num),
   (remainingMinutes_monotone_boundary 3 5 29).2.2⟩

/-! ## Helper lemmas about the update filter -/

/-- A lookup misses when no entry carries the key. -/
theorem jsGet_eq_none (l : JsObj) (k : String)
    (h : ∀ kv ∈ l, kv.1 ≠ k) : jsGet l k = none := by
  induction l with
  | nil => rfl
  | cons kv rest ih =>
    obtain ⟨k1, v⟩ := kv
    simp only [jsGet]
    rw [if_neg (h (k1, v) (List.mem_cons_self _ _))]
    exact ih (fun kv' hkv' => h kv' (List.mem_cons_of_mem _ hkv'))

/-- Every entry of `allowedUpdates` carries one of the three permitted
keys. -/
theorem allowedUpdatesOf_keys (u : JsObj) :
    ∀ kv ∈ allowedUpdatesOf u,
      kv.1 = "monto" ∨ kv.1 = "motivo" ∨ kv.1 = "comprobante_url" := by
  intro kv hkv
  unfold allowedUpdatesOf at hkv
  rcases List.mem_append.mp hkv with h12 | h3
  · rcases List.mem_append.mp h12 with h1 | h2
    · revert h1
      cases jsGet u "monto" <;> intro h1 <;> simp_all
    · revert h2
      cases jsGet u "motivo" <;> intro h2 <;> simp_all
  · revert h3
    cases jsGet u "comprobante_url" <;> intro h3 <;> simp_all

/-- One permitted-key update step touches none of the other columns. -/
theorem applyField_frame (m : Movement) (kv : String × JsValue)
    (h : kv.1 = "monto" ∨ kv.1 = "motivo" ∨ kv.1 = "comprobante_url") :
    (applyField m kv).verified = m.verified
    ∧ (applyField m kv).idmessage = m.idmessage
    ∧ (applyField m kv).remote_jid = m.remote_jid
    ∧ (applyField m kv).id = m.id
    ∧ (applyField m kv).created_at = m.created_at
    ∧ (applyField m kv).tipo = m.tipo
    ∧ (applyField m kv).usuario_id = m.usuario_id := by
  obtain ⟨k, v⟩ := kv
  simp only at h
  rcases h with h | h | h <;> subst h <;> cases v <;>
    exact ⟨rfl, rfl, rfl, rfl, rfl, rfl, rfl⟩

/-- A whole permitted-keys update touches none of the other columns. -/
theorem applyUpdates_frame (fields : JsObj) (m : Movement)
    (h : ∀ kv ∈ fields,
      kv.1 = "monto" ∨ kv.1 = "motivo" ∨ kv.1 = "comprobante_url") :
    (applyUpdates m fields).verified = m.verified
    ∧ (applyUpdates m fields).idmessage = m.idmessage
    ∧ (applyUpdates m fields).remote_jid = m.remote_jid
    ∧ (applyUpdates m fields).id = m.id
    ∧ (applyUpdates m fields).created_at = m.created_at := by
  induction fields generalizing m with
  | nil => exact ⟨rfl, rfl, rfl, rfl, rfl⟩
  | cons kv rest ih =>
    have hstep := applyField_frame m kv (h kv (List.mem_cons_self _ _))
    have htail := ih (applyField m kv)
      (fun kv' hkv' => h kv' (List.mem_cons_of_mem _ hkv'))
    have hfold : applyUpdates m (kv :: rest) = applyUpdates (applyField m kv) rest := rfl
    rw [hfold]
    exact ⟨htail.1.trans hstep.1, htail.2.1.trans hstep.2.1,
      htail.2.2.1.trans hstep.2.2.1, htail.2.2.2.1.trans hstep.2.2.2.1,
      htail.2.2.2.2.trans hstep.2.2.2.2.1⟩

/-! ## Claim theorems: creation and update field handling -/

/-- C10: `updateMovement` only ever forwards `monto`, `motivo` and
`comprobante_url` to the persistence layer — any other requested key
(such as `verified`, `idmessage`, `remote_jid`) is absent from the
filtered update, and the stored row's other columns (verification state
and correlation identifiers in particular) are unchanged by the update. -/
theorem updateMovement_frame (u : JsObj) (k : String) (db : DB) (id : String)
    (row : Movement) (hfind : dbFind db id = some row)
    (hk : k ∉ (["monto", "motivo", "comprobante_url"] : List String)) :
    jsGet (allowedUpdatesOf u) k = none
    ∧ (updateMovement db id u).2.1 = some (applyUpdates row (allowedUpdatesOf u))
    ∧ (applyUpdates row (allowedUpdatesOf u)).verified = row.verified
    ∧ (applyUpdates row (allowedUpdatesOf u)).idmessage = row.idmessage
    ∧ (applyUpdates row (allowedUpdatesOf u)).remote_jid = row.remote_jid := by
  have hframe := applyUpdates_frame (allowedUpdatesOf u) row (allowedUpdatesOf_keys u)
  refine ⟨?_, ?_, hframe.1, hframe.2.1, hframe.2.2.1⟩
  · refine jsGet_eq_none _ _ (fun kv hkv => ?_)
    intro heq
    rcases allowedUpdatesOf_keys u kv hkv with h | h | h <;>
      · rw [heq] at h
        subst h
        simp at hk
  · simp [updateMovement, hfind]

/-- Fixture: a pending movement with correlation identifiers, stored
under id `m1`. -/
def fixC : Movement :=
  { id := "m1", tipo := "INGRESO", monto := 10, motivo := "x",
    verified := "PENDIENTE", idmessage := some "w1",
    remote_jid := some "593@s.whatsapp.net" }

/-- Witness for C10: an update requesting `monto`, `verified` and
`idmessage` forwards only `monto` and leaves the stored verification
state and correlation identifiers untouched. -/
theorem updateMovement_frame_witness :
    (dbFind [fixC] "m1" = some fixC
     ∧ "verified" ∉ (["monto", "motivo", "comprobante_url"] : List String))
    ∧ (jsGet (allowedUpdatesOf
          [("monto", JsValue.num 5), ("verified", JsValue.str "VERIFICADO"),
           ("idmessage", JsValue.str "zz")]) "verified" = none
       ∧ (updateMovement [fixC] "m1"
            [("monto", JsValue.num 5), ("verified", JsValue.str "VERIFICADO"),
             ("idmessage", JsValue.str "zz")]).2.1
          = some (applyUpdates fixC (allowedUpdatesOf
              [("monto", JsValue.num 5), ("verified", JsValue.str "VERIFICADO"),
               ("idmessage", JsValue.str "zz")]))
       ∧ (applyUpdates fixC (allowedUpdatesOf
            [("monto", JsValue.num 5), ("verified", JsValue.str "VERIFICADO"),
             ("idmessage", JsValue.str "zz")])).verified = fixC.verified
       ∧ (applyUpdates fixC (allowedUpdatesOf
            [("monto", JsValue.num 5), ("verified", JsValue.str "VERIFICADO"),
             ("idmessage", JsValue.str "zz")])).idmessage = fixC.idmessage
       ∧ (applyUpdates fixC (allowedUpdatesOf
            [("monto", JsValue.num 5), ("verified", JsValue.str "VERIFICADO"),
             ("idmessage", JsValue.str "zz")])).remote_jid = fixC.remote_jid) :=
  ⟨⟨by decide, by decide⟩,
   updateMovement_frame
     [("monto", JsValue.num 5), ("verified", JsValue.str "VERIFICADO"),
      ("idmessage", JsValue.str "zz")]
     "verified" [fixC] "m1" fixC (by decide) (by decide)⟩

/-- C3 (code-bug evidence): the creation flow of `handleFormSubmit`
derives the verification state from the actor's privilege
(`'VERIFICADO'` for an admin, `'PENDIENTE'` otherwise), but the row
`createMovement` inserts never contains a `verified` column, for any
actor — so the persisted state is never the one the flow computed. -/
theorem createRow_drops_verified (isAdmin : Bool) (tipo : String) (monto : Rat)
    (motivo : String) (url : Option String) (uid nowIso : String) :
    jsGet (handleFormSubmitCreateRow isAdmin tipo monto motivo url uid nowIso)
        "verified" = none
    ∧ handleFormSubmitCreateRow true tipo monto motivo url uid nowIso
      = handleFormSubmitCreateRow false tipo monto motivo url uid nowIso
    ∧ verifiedFor true = "VERIFICADO"
    ∧ verifiedFor false = "PENDIENTE" := by
  refine ⟨?_, rfl, rfl, rfl⟩
  simp [handleFormSubmitCreateRow, insertRowOf, jsGet]

/-! ## Helper lemmas about the movement webhook's database effect -/

/-- Writing an empty update object leaves the table unchanged. -/
theorem dbSet_nil (db : DB) (id : String) : dbSet db id [] = db := by
  simp [dbSet, applyUpdates]

/-- `updateMovement` leaves the table unchanged whenever its filter
empties the update object. -/
theorem updateMovement_db_of_allowed_nil (db : DB) (id : String) (u : JsObj)
    (h : allowedUpdatesOf u = []) : (updateMovement db id u).1 = db := by
  unfold updateMovement
  rw [h]
  cases dbFind db id <;> simp [dbSet_nil]

/-- The correlation object `{ idmessage, remote_jid }` is emptied by the
update filter. -/
theorem allowedUpdatesOf_correlation (v1 v2 : JsValue) :
    allowedUpdatesOf [("idmessage", v1), ("remote_jid", v2)] = [] := by
  simp [allowedUpdatesOf, jsGet]

/-- The body of `notifyMovementWebhook` never changes the table: its only
write goes through `updateMovement` with the correlation object, which
the filter empties. -/
theorem notifyMovementWebhookTry_db (env : Env) (db : DB) (m : Movement) :
    (notifyMovementWebhookTry env db m).1 = db := by
  unfold notifyMovementWebhookTry
  cases env.fetchMovementResp with
  | error e => rfl
  | ok resp =>
    by_cases hok : resp.ok
    · simp only [hok, if_true]
      cases resp.json with
      | error e => rfl
      | ok result =>
        by_cases hids : (jsTruthyStr result.id || jsTruthyStr result.remoteJid) = true
        · simp only [hids, if_true]
          exact updateMovement_db_of_allowed_nil db m.id _
            (allowedUpdatesOf_correlation _ _)
        · simp only [Bool.not_eq_true] at hids
          simp [hids]
    · simp only [Bool.not_eq_true] at hok
      simp [hok]

/-- Fixture: an environment whose movement webhook answers `ok` with both
correlation identifiers. -/
def envIds : Env :=
  { fetchMovementResp :=
      Except.ok ⟨true, Except.ok ⟨some "msg", some "jid"⟩⟩ }

/-- C7 (code-bug evidence): when the movement webhook answers with
correlation identifiers, the code calls `updateMovement` with
`{ idmessage, remote_jid }` and logs "Datos del webhook guardados" — but
the update filter empties that object, so the table after the dispatch
always equals the table before it: the identifiers are never persisted. -/
theorem notifyMovementWebhook_never_persists (env : Env) (db : DB)
    (m : Movement) (v1 v2 : JsValue) :
    (notifyMovementWebhook env db m).1 = db
    ∧ allowedUpdatesOf [("idmessage", v1), ("remote_jid", v2)] = []
    ∧ (notifyMovementWebhook envIds [fixC] fixC).1 = [fixC]
    ∧ Ev.logI "Datos del webhook guardados"
        ∈ (notifyMovementWebhook envIds [fixC] fixC).2.1 := by
  refine ⟨?_, allowedUpdatesOf_correlation v1 v2, by decide, by decide⟩
  have hdb := notifyMovementWebhookTry_db env db m
  rcases htry : notifyMovementWebhookTry env db m with ⟨db2, evs, exc⟩
  rw [htry] at hdb
  unfold notifyMovementWebhook
  rw [htry]
  cases exc <;> simpa using hdb

/-- Fixture: the already-verified copy of `fixC`. -/
def fixCdone : Movement := { fixC with verified := "VERIFICADO" }

/-- C4 (code-bug evidence): verifying the pending movement `fixC` twice
(with the default, succeeding environment) leaves the stored state
`'PENDIENTE'` — `updateMovement` discards the `verified` field — and
dispatches one verification webhook per call (two in total); a movement
that is already `'VERIFICADO'` still triggers a post, so the second call
is not a no-op. -/
theorem verify_twice_not_idempotent :
    fixC.verified = "PENDIENTE"
    ∧ (dbFind (handleVerifyMovement ({} : Env)
         (handleVerifyMovement ({} : Env) [fixC] "m1").1 "m1").1 "m1").map
         Movement.verified = some "PENDIENTE"
    ∧ verifyPostCount ((handleVerifyMovement ({} : Env) [fixC] "m1").2
        ++ (handleVerifyMovement ({} : Env)
             (handleVerifyMovement ({} : Env) [fixC] "m1").1 "m1").2) = 2
    ∧ verifyPostCount (handleVerifyMovement ({} : Env) [fixCdone] "m1").2 = 1 := by
  refine ⟨rfl, ?_, ?_, ?_⟩ <;> decide

/-! ## Computation rules for the collaborator-call projection -/

theorem collabCallsOf_nil : collabCallsOf [] = [] := rfl

theorem collabCallsOf_append (a b : List Ev) :
    collabCallsOf (a ++ b) = collabCallsOf a ++ collabCallsOf b :=
  List.filterMap_append a b _

theorem collabCallsOf_fetchById (i : String) (t : List Ev) :
    collabCallsOf (Ev.fetchById i :: t) = collabCallsOf t := rfl

theorem collabCallsOf_statsFetch (t : List Ev) :
    collabCallsOf (Ev.statsFetch :: t) = collabCallsOf t := rfl

theorem collabCallsOf_logI (s : String) (t : List Ev) :
    collabCallsOf (Ev.logI s :: t) = collabCallsOf t := rfl

theorem collabCallsOf_logW (s : String) (t : List Ev) :
    collabCallsOf (Ev.logW s :: t) = collabCallsOf t := rfl

theorem collabCallsOf_logE (s : String) (t : List Ev) :
    collabCallsOf (Ev.logE s :: t) = collabCallsOf t := rfl

theorem collabCallsOf_toast (s k : String) (t : List Ev) :
    collabCallsOf (Ev.toast s k :: t) = collabCallsOf t := rfl

theorem collabCallsOf_dbWrite (i : String) (u : JsObj) (t : List Ev) :
    collabCallsOf (Ev.dbWrite i u :: t)
      = CollabCall.persist i u :: collabCallsOf t := rfl

theorem collabCallsOf_postMovement (m : Movement) (p : JsObj) (t : List Ev) :
    collabCallsOf (Ev.webhookPost WebhookKind.movement m p :: t)
      = CollabCall.createNotify m :: collabCallsOf t := rfl

theorem collabCallsOf_postDelete (m : Movement) (p : JsObj) (t : List Ev) :
    collabCallsOf (Ev.webhookPost WebhookKind.delete m p :: t)
      = CollabCall.deleteNotify m :: collabCallsOf t := rfl

theorem collabCallsOf_postVerify (m : Movement) (p : JsObj) (t : List Ev) :
    collabCallsOf (Ev.webhookPost WebhookKind.verify m p :: t)
      = collabCallsOf t := rfl

/-- The events of one `updateMovement` call project to exactly its write. -/
theorem updateMovement_collab (db : DB) (id : String) (u : JsObj) :
    collabCallsOf (updateMovement db id u).2.2
      = [CollabCall.persist id (allowedUpdatesOf u)] := by
  unfold updateMovement
  cases dbFind db id <;>
    simp [collabCallsOf_dbWrite, collabCallsOf_logI, collabCallsOf_logE,
      collabCallsOf_toast, collabCallsOf_nil]

/-- The deletion webhook, on a movement carrying both correlation
identifiers, projects to exactly one deletion notification — whatever
the fetch outcome. -/
theorem notifyDeletion_collab (env : Env) (m : Movement)
    (him : jsTruthyStr m.idmessage = true)
    (hrj : jsTruthyStr m.remote_jid = true) :
    collabCallsOf (notifyDeletionWebhook env m).1
      = [CollabCall.deleteNotify m] := by
  unfold notifyDeletionWebhook notifyDeletionWebhookTry
  rw [him, hrj]
  simp only [Bool.and_self, if_true]
  cases env.fetchDeleteResp with
  | error e =>
    simp [collabCallsOf_append, collabCallsOf_logI, collabCallsOf_logE,
      collabCallsOf_postDelete, collabCallsOf_nil]
  | ok resp =>
    by_cases hok : resp.ok <;>
      simp [hok, collabCallsOf_append, collabCallsOf_logI, collabCallsOf_logE,
        collabCallsOf_postDelete, collabCallsOf_nil]

/-- The movement webhook's events always begin, among collaborator
calls, with the created/updated notification for the movement it was
given (whatever the statistics read and fetch outcomes; a correlation
write may follow it). -/
theorem notifyMovementWebhook_collab (env : Env) (db : DB) (m : Movement) :
    ∃ rest, collabCallsOf (notifyMovementWebhook env db m).2.1
      = CollabCall.createNotify m :: rest := by
  have htry : ∃ rest, collabCallsOf (notifyMovementWebhookTry env db m).2.1
      = CollabCall.createNotify m :: rest := by
    unfold notifyMovementWebhookTry
    cases hs : env.statsResult <;> cases hf : env.fetchMovementResp
    · exact ⟨[], by
        simp [collabCallsOf_append, collabCallsOf_statsFetch,
          collabCallsOf_logW, collabCallsOf_logI, collabCallsOf_postMovement,
          collabCallsOf_nil]⟩
    · rename_i resp
      by_cases hok : resp.ok
      · cases hjson : resp.json with
        | error e =>
          exact ⟨[], by
            simp [hok, hjson, collabCallsOf_append, collabCallsOf_statsFetch,
              collabCallsOf_logW, collabCallsOf_logI,
              collabCallsOf_postMovement, collabCallsOf_nil]⟩
        | ok result =>
          by_cases hids : jsTruthyStr result.id = true
              ∨ jsTruthyStr result.remoteJid = true
          · exact ⟨[CollabCall.persist m.id (allowedUpdatesOf
                [("idmessage", jsOptStrVal result.id),
                 ("remote_jid", jsOptStrVal result.remoteJid)])], by
              simp [hok, hjson, hids, collabCallsOf_append,
                collabCallsOf_statsFetch, collabCallsOf_logW, collabCallsOf_logI,
                collabCallsOf_postMovement, updateMovement_collab,
                collabCallsOf_nil]⟩
          · exact ⟨[], by
              simp [hok, hjson, hids, collabCallsOf_append,
                collabCallsOf_statsFetch, collabCallsOf_logW, collabCallsOf_logI,
                collabCallsOf_postMovement, collabCallsOf_nil]⟩
      · exact ⟨[], by
          simp [hok, collabCallsOf_append, collabCallsOf_statsFetch,
            collabCallsOf_logW, collabCallsOf_logI,
            collabCallsOf_postMovement, collabCallsOf_nil]⟩
    · exact ⟨[], by
        simp [collabCallsOf_append, collabCallsOf_statsFetch,
          collabCallsOf_logW, collabCallsOf_logI, collabCallsOf_postMovement,
          collabCallsOf_nil]⟩
    · rename_i resp
      by_cases hok : resp.ok
      · cases hjson : resp.json with
        | error e =>
          exact ⟨[], by
            simp [hok, hjson, collabCallsOf_append, collabCallsOf_statsFetch,
              collabCallsOf_logW, collabCallsOf_logI,
              collabCallsOf_postMovement, collabCallsOf_nil]⟩
        | ok result =>
          by_cases hids : jsTruthyStr result.id = true
              ∨ jsTruthyStr result.remoteJid = true
          · exact ⟨[CollabCall.persist m.id (allowedUpdatesOf
                [("idmessage", jsOptStrVal result.id),
                 ("remote_jid", jsOptStrVal result.remoteJid)])], by
              simp [hok, hjson, hids, collabCallsOf_append,
                collabCallsOf_statsFetch, collabCallsOf_logW, collabCallsOf_logI,
                collabCallsOf_postMovement, updateMovement_collab,
                collabCallsOf_nil]⟩
          · exact ⟨[], by
              simp [hok, hjson, hids, collabCallsOf_append,
                collabCallsOf_statsFetch, collabCallsOf_logW, collabCallsOf_logI,
                collabCallsOf_postMovement, collabCallsOf_nil]⟩
      · exact ⟨[], by
          simp [hok, collabCallsOf_append, collabCallsOf_statsFetch,
            collabCallsOf_logW, collabCallsOf_logI,
            collabCallsOf_postMovement, collabCallsOf_nil]⟩
  obtain ⟨rest, hrest⟩ := htry
  unfold notifyMovementWebhook
  rcases h : notifyMovementWebhookTry env db m with ⟨db2, evs, exc⟩
  rw [h] at hrest
  cases exc with
  | ok u => exact ⟨rest, hrest⟩
  | error e =>
    exact ⟨rest, by
      simpa [collabCallsOf_append, collabCallsOf_logW, collabCallsOf_nil]
        using hrest⟩

/-! ## Claim theorems: edit-flow ordering and notification error handling -/

/-- C6: in the edit flow, when the old row carries both correlation
identifiers, the collaborator calls occur in the fixed order
deletion-notify (for the old state) → persist (the filtered update) →
create-notify (for the updated state); whatever else follows comes after
those three. -/
theorem editFlow_notification_order (env : Env) (db : DB) (f : EditForm)
    (old : Movement) (hfind : dbFind db f.editingMovementId = some old)
    (him : jsTruthyStr old.idmessage = true)
    (hrj : jsTruthyStr old.remote_jid = true) :
    ∃ rest, collabCallsOf (handleFormSubmitEdit env db f).2
      = CollabCall.deleteNotify old
        :: CollabCall.persist f.editingMovementId
             (allowedUpdatesOf (editUpdatesOf f))
        :: CollabCall.createNotify
             (applyUpdates old (allowedUpdatesOf (editUpdatesOf f)))
        :: rest := by
  have hupd : updateMovement db f.editingMovementId (editUpdatesOf f)
      = (dbSet db f.editingMovementId (allowedUpdatesOf (editUpdatesOf f)),
         some (applyUpdates old (allowedUpdatesOf (editUpdatesOf f))),
         [Ev.dbWrite f.editingMovementId (allowedUpdatesOf (editUpdatesOf f)),
          Ev.logI "Movimiento actualizado"]) := by
    unfold updateMovement
    rw [hfind]
  obtain ⟨rest, hrest⟩ := notifyMovementWebhook_collab env
    (dbSet db f.editingMovementId (allowedUpdatesOf (editUpdatesOf f)))
    (applyUpdates old (allowedUpdatesOf (editUpdatesOf f)))
  refine ⟨rest, ?_⟩
  unfold handleFormSubmitEdit
  rw [hfind, hupd]
  simp [him, collabCallsOf_append, collabCallsOf_fetchById,
    collabCallsOf_dbWrite, collabCallsOf_logI, collabCallsOf_toast,
    collabCallsOf_nil, notifyDeletion_collab env old him hrj, hrest]

/-- Witness for C6 on the stored movement `fixC`, a concrete edit form
and the default environment. -/
theorem editFlow_notification_order_witness :
    (dbFind [fixC] "m1" = some fixC
     ∧ jsTruthyStr fixC.idmessage = true
     ∧ jsTruthyStr fixC.remote_jid = true)
    ∧ ∃ rest, collabCallsOf (handleFormSubmitEdit ({} : Env) [fixC]
        { monto := 99, motivo := "new", editingMovementId := "m1" }).2
      = CollabCall.deleteNotify fixC
        :: CollabCall.persist "m1"
             (allowedUpdatesOf (editUpdatesOf
               { monto := 99, motivo := "new", editingMovementId := "m1" }))
        :: CollabCall.createNotify
             (applyUpdates fixC (allowedUpdatesOf (editUpdatesOf
               { monto := 99, motivo := "new", editingMovementId := "m1" })))
        :: rest :=
  ⟨⟨by decide, by decide, by decide⟩,
   editFlow_notification_order ({} : Env) [fixC]
     { monto := 99, motivo := "new", editingMovementId := "m1" } fixC
     (by decide) (by decide) (by decide)⟩

/-- C8: for every environment — in particular when any webhook fetch or
the statistics read rejects — the notification operations return
normally (`Except.ok`, the model of the enclosing `catch` swallowing the
failure), and the edit flow still performs its primary database write. -/
theorem notifications_never_propagate (env : Env) (db : DB) (m : Movement)
    (f : EditForm) (old : Movement) :
    (notifyMovementWebhook env db m).2.2 = Except.ok ()
    ∧ (notifyVerificationWebhook env m).2 = Except.ok ()
    ∧ (notifyDeletionWebhook env m).2 = Except.ok ()
    ∧ (notifyMovementWebhookLegacy env m).2 = Except.ok ()
    ∧ (dbFind db f.editingMovementId = some old →
        Ev.dbWrite f.editingMovementId (allowedUpdatesOf (editUpdatesOf f))
          ∈ (handleFormSubmitEdit env db f).2) := by
  refine ⟨?_, ?_, ?_, ?_, ?_⟩
  · unfold notifyMovementWebhook
    rcases notifyMovementWebhookTry env db m with ⟨db2, evs, exc⟩
    cases exc <;> rfl
  · unfold notifyVerificationWebhook
    rcases notifyVerificationWebhookTry env m with ⟨evs, exc⟩
    cases exc <;> rfl
  · unfold notifyDeletionWebhook
    rcases notifyDeletionWebhookTry env m with ⟨evs, exc⟩
    cases exc <;> rfl
  · unfold notifyMovementWebhookLegacy
    rcases notifyMovementWebhookLegacyTry env m with ⟨evs, exc⟩
    cases exc <;> rfl
  · intro hfind
    have hupd : updateMovement db f.editingMovementId (editUpdatesOf f)
        = (dbSet db f.editingMovementId (allowedUpdatesOf (editUpdatesOf f)),
           some (applyUpdates old (allowedUpdatesOf (editUpdatesOf f))),
           [Ev.dbWrite f.editingMovementId (allowedUpdatesOf (editUpdatesOf f)),
            Ev.logI "Movimiento actualizado"]) := by
      unfold updateMovement
      rw [hfind]
    unfold handleFormSubmitEdit
    rw [hfind, hupd]
    simp [List.mem_append]

/-- Fixture: an environment in which every collaborator fetch and the
statistics read reject. -/
def envFail : Env :=
  { fetchMovementResp := Except.error "net",
    fetchVerifyResp := Except.error "net",
    fetchDeleteResp := Except.error "net",
    statsResult := Except.error "db" }

/-- Witness for C8: with every fetch rejecting, all four notification
operations still return normally and the concrete edit of `fixC`
still writes the database. -/
theorem notifications_never_propagate_witness :
    (dbFind [fixC] "m1" = some fixC)
    ∧ ((notifyMovementWebhook envFail [fixC] fixC).2.2 = Except.ok ()
       ∧ (notifyVerificationWebhook envFail fixC).2 = Except.ok ()
       ∧ (notifyDeletionWebhook envFail fixC).2 = Except.ok ()
       ∧ (notifyMovementWebhookLegacy envFail fixC).2 = Except.ok ()
       ∧ (dbFind [fixC] "m1" = some fixC →
           Ev.dbWrite "m1" (allowedUpdatesOf (editUpdatesOf
             { monto := 99, motivo := "new", editingMovementId := "m1" }))
             ∈ (handleFormSubmitEdit envFail [fixC]
                 { monto := 99, motivo := "new", editingMovementId := "m1" }).2)) :=
  ⟨by decide,
   notifications_never_propagate envFail [fixC] fixC
     { monto := 99, motivo := "new", editingMovementId := "m1" } fixC⟩
